import Mathlib

/-!
Shallow embedding of `src/django_mongodb_debug/panel.py`: the MongoDB debug
panel.  It covers query recording (`MongoPanel.record`), cursor
instrumentation (`wrap_cursor` and the cursor-wrapper mixins), and the
per-request statistics pass (`MongoPanel.generate_stats`) with its
similarity/duplicate grouping, timeline offsets and database summaries.

Modelling conventions:
* Python floats are modelled as exact rationals (`ℚ`).
* Python dicts are modelled as insertion-ordered association lists, which
  matches CPython dict semantics (insertion order preserved, update in
  place, new key appended at the end).
* External helpers imported from `debug_toolbar` / Django
  (`reformat_sql`, `is_select_query`, `render_stacktrace`,
  `contrasting_color_generator`, `SQL_WARNING_THRESHOLD`,
  `last_executed_query`) are opaque parameters gathered in `Externals`:
  the panel code only applies them, never inspects their output.
-/

/-- A Python value, as may appear among a query's bound parameters.
`bytes_ (some s)` force-decodes to `s`; `bytes_ none` raises
`UnicodeDecodeError` when decoded.  `decimal_` and `datetime_` are the
scalars `NormalCursorMixin._decode` treats specially: `datetime_` (standing
for `datetime.datetime/date/time`) is in `CONVERT_TYPES` and is converted to
its string form, `decimal_` is a `force_str`-protected type that
`json.dumps` cannot serialize (raises `TypeError`). -/
inductive PyVal where
  | none_ : PyVal
  | bool_ : Bool → PyVal
  | int_ : ℤ → PyVal
  | float_ : ℚ → PyVal
  | str_ : String → PyVal
  | bytes_ : Option String → PyVal
  | decimal_ : ℚ → PyVal
  | datetime_ : String → PyVal
  | list_ : List PyVal → PyVal
  | dict_ : List (String × PyVal) → PyVal

mutual

/-- `NormalCursorMixin._decode` (panel.py lines 144-158): sequences and dict
values are decoded elementwise; `datetime`-like values are forced to their
string form (`strings_only` is `False` for `CONVERT_TYPES`); other scalars
go through `force_str(·, strings_only=True)`, which leaves protected types
(`None`, `bool`, `int`, `float`, `Decimal`) and strings unchanged and
decodes `bytes`, degrading to `"(encoded string)"` on `UnicodeDecodeError`. -/
def _decode : PyVal → PyVal
  | .list_ xs => .list_ (_decode_list xs)
  | .dict_ kvs => .dict_ (_decode_dict kvs)
  | .datetime_ s => .str_ s
  | .bytes_ (some s) => .str_ s
  | .bytes_ none => .str_ ("(encoded string)")
  | v => v

def _decode_list : List PyVal → List PyVal
  | [] => []
  | x :: xs => _decode x :: _decode_list xs

def _decode_dict : List (String × PyVal) → List (String × PyVal)
  | [] => []
  | kv :: kvs => (kv.1, _decode kv.2) :: _decode_dict kvs

end

mutual

/-- `json.dumps`, returning `none` where CPython raises `TypeError`
(non-serializable values: `bytes`, `Decimal`, `datetime` objects).  The
exact rendered text matters to no claim; only serializability and
determinism do. -/
def json_dumps : PyVal → Option String
  | .none_ => some ("null")
  | .bool_ b => some (if b then ("true") else ("false"))
  | .int_ n => some (toString n)
  | .float_ q => some (toString q)
  | .str_ s => some ("\x22" ++ s ++ "\x22")
  | .bytes_ _ => none
  | .decimal_ _ => none
  | .datetime_ _ => none
  | .list_ xs =>
    match json_dumps_list xs with
    | some ss => some ("[" ++ String.intercalate (", ") ss ++ "]")
    | none => none
  | .dict_ kvs =>
    match json_dumps_dict kvs with
    | some ss => some ("\x7b" ++ String.intercalate (", ") ss ++ "\x7d")
    | none => none

def json_dumps_list : List PyVal → Option (List String)
  | [] => some []
  | x :: xs =>
    match json_dumps x, json_dumps_list xs with
    | some s, some ss => some (s :: ss)
    | _, _ => none

def json_dumps_dict : List (String × PyVal) → Option (List String)
  | [] => some []
  | kv :: kvs =>
    match json_dumps kv.2, json_dumps_dict kvs with
    | some s, some ss => some (("\x22" ++ kv.1 ++ "\x22" ++ ": " ++ s) :: ss)
    | _, _ => none

end

mutual

/-- Python `repr`, used by `_duplicate_query_key` as a stable textual
serialization of the parameters.  Equal values give equal text (that is all
any claim uses); the precise escaping/number formatting of CPython is not
reproduced. -/
def py_repr : PyVal → String
  | .none_ => "None"
  | .bool_ b => if b then ("True") else ("False")
  | .int_ n => toString n
  | .float_ q => toString q
  | .str_ s => "\x27" ++ s ++ "\x27"
  | .bytes_ o => "b\x27" ++ (match o with | some s => s | none => "") ++ "\x27"
  | .decimal_ q => "Decimal(\x27" ++ toString q ++ "\x27)"
  | .datetime_ s => s
  | .list_ xs => "[" ++ String.intercalate (", ") (py_repr_list xs) ++ "]"
  | .dict_ kvs => "\x7b" ++ String.intercalate (", ") (py_repr_dict kvs) ++ "\x7d"

def py_repr_list : List PyVal → List String
  | [] => []
  | x :: xs => py_repr x :: py_repr_list xs

def py_repr_dict : List (String × PyVal) → List String
  | [] => []
  | kv :: kvs => ("\x27" ++ kv.1 ++ "\x27: " ++ py_repr kv.2) :: py_repr_dict kvs

end

/-- Python `repr` of a tuple (singleton tuples carry a trailing comma). -/
def py_repr_tuple (xs : List PyVal) : String :=
  match xs with
  | [] => "()"
  | [x] => "(" ++ py_repr x ++ ",)"
  | _ => "(" ++ String.intercalate (", ") (py_repr_list xs) ++ ")"

/-- One recorded query, i.e. the `kwargs` dict built by
`NormalCursorMixin._record` and appended by `MongoPanel.record`
(panel.py lines 178-188).  `raw_params` is the parameter sequence as passed
to `execute` (`none` models Python `None`); `stacktrace` abstracts the
captured frame list as an opaque string. -/
structure QueryRecord where
  alias_ : String
  vendor : String
  sql : String
  duration : ℚ
  raw_sql : String
  params : String
  raw_params : Option (List PyVal)
  stacktrace : String
  template_info : Option String

instance : Inhabited QueryRecord :=
  ⟨⟨"", "", "", 0, "", "", none, "", none⟩⟩

/-- `_similar_query_key` (panel.py lines 37-38). -/
def _similar_query_key (q : QueryRecord) : String := q.raw_sql

/-- `_duplicate_query_key` (panel.py lines 41-46): the raw SQL paired with
`repr` of `tuple(raw_params)` (`()` when `raw_params` is `None`); `repr`
sidesteps unhashable parameter values such as lists. -/
def _duplicate_query_key (q : QueryRecord) : String × String :=
  (q.raw_sql, py_repr_tuple (match q.raw_params with | none => [] | some xs => xs))

/-- Association-list lookup, first match wins: Python dict access for the
insertion-ordered dict model. -/
def alookup {α β : Type} [DecidableEq α] (a : α) : List (α × β) → Option β
  | [] => none
  | kv :: rest => if kv.1 = a then some kv.2 else alookup a rest

/-- Per-alias summary as created by `MongoPanel.record`
(panel.py lines 224-231). -/
structure DBSummary where
  time_spent : ℚ
  num_queries : ℕ
deriving DecidableEq, Repr

/-- `self._databases[alias]` update performed by `MongoPanel.record`:
first sight of an alias creates `{time_spent: duration, num_queries: 1}`,
later sightings add the duration and bump the count. -/
def db_update (a : String) (d : ℚ) : List (String × DBSummary) → List (String × DBSummary)
  | [] => [(a, ⟨d, 1⟩)]
  | kv :: rest =>
    if kv.1 = a then (kv.1, ⟨kv.2.time_spent + d, kv.2.num_queries + 1⟩) :: rest
    else kv :: db_update a d rest

/-- The panel's mutable recording state: `self._sql_time`, `self._queries`,
`self._databases` (panel.py lines 215-219). -/
structure PanelState where
  sql_time : ℚ
  queries : List QueryRecord
  databases : List (String × DBSummary)

/-- `MongoPanel.record` (panel.py lines 221-232): append the record, update
the owning alias's summary, add the duration to the global total. -/
def MongoPanel_record (st : PanelState) (q : QueryRecord) : PanelState :=
  { sql_time := st.sql_time + q.duration
    queries := st.queries ++ [q]
    databases := db_update q.alias_ q.duration st.databases }

/-- The panel state after a fresh panel (`__init__`, lines 215-219) has
recorded the given queries in order. -/
def stateOf (qs : List QueryRecord) : PanelState :=
  qs.foldl MongoPanel_record ⟨0, [], []⟩

/-- The external helpers `generate_stats` and `_record` apply but never
inspect: the configured `SQL_WARNING_THRESHOLD`, `reformat_sql`,
`is_select_query`, `render_stacktrace` from `debug_toolbar`, the color
stream produced by a fresh `contrasting_color_generator()` (a deterministic
generator, so every fresh instance yields the same stream, indexed here by
how many times `next` has been called), and the driver's
`last_executed_query`. -/
structure Externals where
  sql_warning_threshold : ℚ
  reformat_sql : String → String
  is_select_query : String → Bool
  render_stacktrace : String → String
  color_stream : ℕ → String
  last_executed_query : String → Option (List PyVal) → String

/-- The `kwargs` dict built by `NormalCursorMixin._record`
(panel.py lines 160-191): `_params` starts as `""` and is replaced by
`json.dumps(self._decode(params))` only when that does not raise
`TypeError` (`contextlib.suppress`). -/
def _record_kwargs (ext : Externals) (alias_ vendor : String) (sql : String)
    (params : Option (List PyVal)) (duration : ℚ) (stack : String)
    (tinfo : Option String) : QueryRecord :=
  let _params : String :=
    match json_dumps (_decode (match params with
      | none => PyVal.none_
      | some xs => PyVal.list_ xs)) with
    | some s => s
    | none => ""
  { alias_ := alias_, vendor := vendor,
    sql := ext.last_executed_query sql params,
    duration := duration, raw_sql := sql, params := _params,
    raw_params := params, stacktrace := stack, template_info := tinfo }

/-- A query dict after `generate_stats` has annotated it
(panel.py lines 314-352).  `sql` and `stacktrace` hold the reformatted /
rendered values the pass writes back over the recorded ones; `form` marks
the `SignedDataForm` attached at line 322 (its content is host-framework
plumbing).  `similar_*` / `duplicate_*` are `none` when
`_process_query_groups` left the query unannotated.  The `starts_trans` /
`ends_trans` / `in_trans` fields are the transaction marks upstream
django-debug-toolbar sets; this code never writes them, and they are kept
here as always-`none` fields so that their absence is a provable statement. -/
structure AnnotatedQuery where
  alias_ : String
  vendor : String
  sql : String
  duration : ℚ
  raw_sql : String
  params : String
  raw_params : Option (List PyVal)
  stacktrace : String
  template_info : Option String
  form : Bool
  is_slow : Bool
  is_select : Bool
  rgb_color : List ℤ
  width_ratio_ : ℚ
  start_offset : ℚ
  end_offset : ℚ
  trace_color : String
  similar_count : Option ℕ
  similar_color : Option String
  duplicate_count : Option ℕ
  duplicate_color : Option String
  starts_trans : Option Bool
  ends_trans : Option Bool
  in_trans : Option Bool

/-- `factor = int(256.0 / (len(self._databases) * 2.5))` (panel.py line
296) as exact arithmetic: `512 / (5k)` is never an integer (5 does not
divide 512) and its distance to the nearest integer, at least `1/(5k)`,
dwarfs the float rounding error, so the float truncation equals the
rational floor, i.e. natural division. -/
def stats_factor (k : ℕ) : ℕ := 512 / (5 * k)

/-- The channel-filling `while` loop of the per-database RGB ramp
(panel.py lines 303-309), with explicit fuel.  While `rgb[color] < factor`
the loop adds `nc = min(256 - rgb[color], 256) ≥ 154` to `rgb[color]`
(`factor ≤ 102`), so `n + 8` fuel (see `rgb_for`) strictly exceeds the
iteration count and the fuel never runs out on inputs `generate_stats`
produces. -/
def rgb_loop : ℕ → ℕ → List ℤ → ℕ → ℕ → List ℤ
  | 0, _, rgb, _, _ => rgb
  | fuel + 1, factor, rgb, color, nn =>
    if rgb.getD color 0 < (factor : ℤ) then
      let nc : ℤ := min (256 - rgb.getD color 0) 256
      let rgb := rgb.set color (rgb.getD color 0 + nc)
      let nn := if nn + 1 > 2 then 0 else nn + 1
      rgb_loop fuel factor (rgb.set nn nc) color nn
    else rgb

/-- The RGB value assigned to the `n`-th database
(panel.py lines 297-310). -/
def rgb_for (factor : ℕ) (n : ℕ) : List ℤ :=
  let color := n % 3
  let rgb : List ℤ := ([0, 0, 0] : List ℤ).set color (256 - ((n / 3 : ℕ) : ℤ) * (factor : ℤ))
  rgb_loop (n + 8) factor rgb color color

/-- `for n, db in enumerate(self._databases.values()): ... db["rgb_color"] = rgb`
(panel.py lines 297-310), keying each summary with its RGB value. -/
def assign_rgb_go (factor : ℕ) : ℕ → List (String × DBSummary) → List (String × (DBSummary × List ℤ))
  | _, [] => []
  | n, kv :: rest => (kv.1, (kv.2, rgb_for factor n)) :: assign_rgb_go factor (n + 1) rest

/-- The databases with their `rgb_color` assignment, as after
panel.py lines 296-310. -/
def stats_rgb_dbs (st : PanelState) : List (String × (DBSummary × List ℤ)) :=
  assign_rgb_go (stats_factor st.databases.length) 0 st.databases

/-- `self._databases[alias]["rgb_color"]` (panel.py line 332).  The `[]`
default is unreachable for states built by `MongoPanel.record` (in Python a
missing alias would be a `KeyError`). -/
def stats_rgb_of (st : PanelState) (a : String) : List ℤ :=
  match alookup a (stats_rgb_dbs st) with
  | some p => p.2
  | none => []

/-- One iteration of the annotation loop body (panel.py lines 322-342),
given the running `width_ratio_tally` and the trace color chosen for this
query's rendered stacktrace. -/
def annotate_one (ext : Externals) (sql_time : ℚ) (rgbOf : String → List ℤ)
    (tally : ℚ) (tc : String) (q : QueryRecord) : AnnotatedQuery :=
  let w : ℚ := if sql_time = 0 then 0 else q.duration / sql_time * 100
  { alias_ := q.alias_, vendor := q.vendor,
    sql := if q.sql = "" then q.sql else ext.reformat_sql q.sql,
    duration := q.duration, raw_sql := q.raw_sql, params := q.params,
    raw_params := q.raw_params,
    stacktrace := ext.render_stacktrace q.stacktrace,
    template_info := q.template_info,
    form := true,
    is_slow := decide (ext.sql_warning_threshold < q.duration),
    is_select := ext.is_select_query q.raw_sql,
    rgb_color := rgbOf q.alias_,
    width_ratio_ := w, start_offset := tally, end_offset := w + tally,
    trace_color := tc,
    similar_count := none, similar_color := none,
    duplicate_count := none, duplicate_color := none,
    starts_trans := none, ends_trans := none, in_trans := none }

/-- The `for query in self._queries` annotation loop
(panel.py lines 314-344): threads the `width_ratio_tally`, the
`trace_colors` defaultdict (keyed by the rendered stacktrace) and the
position in the `colors` generator stream.  `width_ratio` is
`duration / sql_time * 100`, degrading to `0` exactly when the division
raises `ZeroDivisionError`, i.e. when `sql_time` is zero. -/
def timeline_go (ext : Externals) (sql_time : ℚ) (rgbOf : String → List ℤ) :
    ℚ → List (String × String) → ℕ → List QueryRecord → List AnnotatedQuery
  | _, _, _, [] => []
  | tally, tmap, cIdx, q :: rest =>
    let w : ℚ := if sql_time = 0 then 0 else q.duration / sql_time * 100
    let st_r := ext.render_stacktrace q.stacktrace
    match alookup st_r tmap with
    | some tc =>
      annotate_one ext sql_time rgbOf tally tc q ::
        timeline_go ext sql_time rgbOf (tally + w) tmap cIdx rest
    | none =>
      annotate_one ext sql_time rgbOf tally (ext.color_stream cIdx) q ::
        timeline_go ext sql_time rgbOf (tally + w) (tmap ++ [(st_r, ext.color_stream cIdx)]) (cIdx + 1) rest

/-- The annotated (but not yet similarity/duplicate-marked) queries of a
request. -/
def stats_tl_queries (ext : Externals) (st : PanelState) : List AnnotatedQuery :=
  timeline_go ext st.sql_time (stats_rgb_of st) 0 [] 0 st.queries

/-- `defaultdict(list)` append for the grouping dicts
(panel.py lines 289-290, 317-320): append the query's position to its
key's group, creating the group at the end on first sight of the key. -/
def add_to_group {κ : Type} [DecidableEq κ] (k : κ) (i : ℕ) : List (κ × List ℕ) → List (κ × List ℕ)
  | [] => [(k, [i])]
  | g :: gs => if g.1 = k then (g.1, g.2 ++ [i]) :: gs else g :: add_to_group k i gs

/-- Builds the grouping dict over the queries (by position), starting at
position `i`. -/
def build_groups_go {κ : Type} [DecidableEq κ] (keyf : QueryRecord → κ) :
    ℕ → List (κ × List ℕ) → List QueryRecord → List (κ × List ℕ)
  | _, gs, [] => gs
  | i, gs, q :: rest => build_groups_go keyf (i + 1) (add_to_group (keyf q) i gs) rest

/-- `similar_query_groups`: queries grouped by
`(query["alias"], _similar_query_key(query))` (panel.py line 317). -/
def similar_groups (qs : List QueryRecord) : List ((String × String) × List ℕ) :=
  build_groups_go (fun q => (q.alias_, _similar_query_key q)) 0 [] qs

/-- `duplicate_query_groups`: queries grouped by
`(query["alias"], _duplicate_query_key(query))` (panel.py lines 318-320). -/
def duplicate_groups (qs : List QueryRecord) : List ((String × (String × String)) × List ℕ) :=
  build_groups_go (fun q => (q.alias_, _duplicate_query_key q)) 0 [] qs

/-- The positions (counted from `i`) of the queries whose key is `k`: the
reference description of one group's content. -/
def key_indices {κ : Type} [DecidableEq κ] (keyf : QueryRecord → κ) (k : κ) :
    ℕ → List QueryRecord → List ℕ
  | _, [] => []
  | i, q :: rest =>
    if keyf q = k then i :: key_indices keyf k (i + 1) rest
    else key_indices keyf k (i + 1) rest

/-- `counts[alias] += count` on the `defaultdict(int)` of
`_process_query_groups` (panel.py lines 50, 59). -/
def bump_count (a : String) (n : ℕ) : List (String × ℕ) → List (String × ℕ)
  | [] => [(a, n)]
  | kv :: rest => if kv.1 = a then (kv.1, kv.2 + n) :: rest else kv :: bump_count a n rest

/-- `_process_query_groups` (panel.py lines 49-61), minus the final write
of the per-alias counts into the databases (done by the caller model
`stats_databases_unsorted`): for each group of size at least 2, draw the
next color from the shared generator and assign `(size, color)` to every
member; returns the assignments, the generator position after the pass, and
the per-alias counts. -/
def process_groups {κ : Type} (colors : ℕ → String) :
    ℕ → List ((String × κ) × List ℕ) → List (ℕ × ℕ × String) × ℕ × List (String × ℕ)
  | cIdx, [] => ([], cIdx, [])
  | cIdx, g :: rest =>
    if 1 < g.2.length then
      let out := process_groups colors (cIdx + 1) rest
      (g.2.map (fun i => (i, g.2.length, colors cIdx)) ++ out.1,
       out.2.1, bump_count g.1.1 g.2.length out.2.2)
    else process_groups colors cIdx rest

/-- `query["similar_count"] = count; query["similar_color"] = color`
(panel.py lines 57-58, name = "similar"). -/
def set_similar (q : AnnotatedQuery) (c : ℕ) (col : String) : AnnotatedQuery :=
  { q with similar_count := some c, similar_color := some col }

/-- `query["duplicate_count"] = count; query["duplicate_color"] = color`
(panel.py lines 57-58, name = "duplicate"). -/
def set_duplicate (q : AnnotatedQuery) (c : ℕ) (col : String) : AnnotatedQuery :=
  { q with duplicate_count := some c, duplicate_color := some col }

/-- Applies a pass's `(position, size, color)` assignments to the query
list (the Python code mutates the shared query dicts in place; here the
queries are identified by position). -/
def apply_annots_go (setter : AnnotatedQuery → ℕ → String → AnnotatedQuery)
    (assigns : List (ℕ × ℕ × String)) : ℕ → List AnnotatedQuery → List AnnotatedQuery
  | _, [] => []
  | i, q :: rest =>
    (match assigns.find? (fun a => decide (a.1 = i)) with
     | some a => setter q a.2.1 a.2.2
     | none => q) :: apply_annots_go setter assigns (i + 1) rest

/-- The similar-pass output: `_process_query_groups(similar_query_groups,
..., group_colors, "similar")` with a fresh generator (panel.py lines
346-349). -/
def stats_sim_out (ext : Externals) (qs : List QueryRecord) :
    List (ℕ × ℕ × String) × ℕ × List (String × ℕ) :=
  process_groups ext.color_stream 0 (similar_groups qs)

/-- The duplicate-pass output, continuing the same `group_colors`
generator (panel.py lines 350-352). -/
def stats_dup_out (ext : Externals) (qs : List QueryRecord) :
    List (ℕ × ℕ × String) × ℕ × List (String × ℕ) :=
  process_groups ext.color_stream (stats_sim_out ext qs).2.1 (duplicate_groups qs)

/-- The `queries` entry of the stats payload: annotation loop plus both
grouping passes over the shared query dicts. -/
def stats_queries (ext : Externals) (st : PanelState) : List AnnotatedQuery :=
  if st.queries.isEmpty then []
  else
    apply_annots_go set_duplicate (stats_dup_out ext st.queries).1 0
      (apply_annots_go set_similar (stats_sim_out ext st.queries).1 0
        (stats_tl_queries ext st))

/-- A database summary as it sits in the payload: the recorded aggregates
plus `rgb_color` (panel.py line 310; absent — modelled `[]` — when there
were no queries, since the RGB loop is inside `if self._queries:`) and the
per-alias `similar_count` / `duplicate_count` written by
`_process_query_groups` (lines 60-61; `0` for aliases in no group, the
`defaultdict(int)` default). -/
structure DBAnn where
  time_spent : ℚ
  num_queries : ℕ
  rgb_color : List ℤ
  similar_count : ℕ
  duplicate_count : ℕ
deriving DecidableEq, Repr

/-- The databases map right before the final `sorted(...)`
(panel.py lines 354-358). -/
def stats_databases_unsorted (ext : Externals) (st : PanelState) : List (String × DBAnn) :=
  let simCounts := (stats_sim_out ext st.queries).2.2
  let dupCounts := (stats_dup_out ext st.queries).2.2
  if st.queries.isEmpty then
    st.databases.map (fun kv =>
      (kv.1, ⟨kv.2.time_spent, kv.2.num_queries, [],
        (alookup kv.1 simCounts).getD 0, (alookup kv.1 dupCounts).getD 0⟩))
  else
    (stats_rgb_dbs st).map (fun kv =>
      (kv.1, ⟨kv.2.1.time_spent, kv.2.1.num_queries, kv.2.2,
        (alookup kv.1 simCounts).getD 0, (alookup kv.1 dupCounts).getD 0⟩))

/-- The stats payload recorded by `self.record_stats`
(panel.py lines 354-362). -/
structure StatsPayload where
  databases : List (String × DBAnn)
  queries : List AnnotatedQuery
  sql_time : ℚ

/-- The order of `sorted(self._databases.items(), key=lambda x:
-x[1]["time_spent"])`: ascending in `-time_spent`, i.e. descending in
`time_spent`. -/
def db_sort_le (a b : String × DBAnn) : Prop := b.2.time_spent ≤ a.2.time_spent

instance : DecidableRel db_sort_le :=
  fun a b => inferInstanceAs (Decidable (b.2.time_spent ≤ a.2.time_spent))

/-- `MongoPanel.generate_stats` (panel.py lines 286-362), as the payload it
records. -/
def generate_stats (ext : Externals) (st : PanelState) : StatsPayload :=
  { databases := List.insertionSort db_sort_le (stats_databases_unsorted ext st)
    queries := stats_queries ext st
    sql_time := st.sql_time }

/-- A cursor-producing callable on a connection: either the driver's
original one or the `cursor`/`chunked_cursor` closure installed by
`wrap_cursor`, which captures the previous callable in
`connection._djdt_cursor` and adds one layer of DjDT instrumentation. -/
inductive CursorProducer where
  | driver : ℕ → CursorProducer
  | djdt_wrapped : CursorProducer → CursorProducer
deriving DecidableEq, Repr

/-- The number of DjDT instrumentation layers a cursor-producing callable
applies; each layer times and records every `execute`/`executemany`/
`callproc` once (when a logger is attached), so this is also the number of
times one executed statement would be recorded. -/
def instr_layers : CursorProducer → ℕ
  | .driver _ => 0
  | .djdt_wrapped p => instr_layers p + 1

/-- The attributes of a `DatabaseWrapper` that `wrap_cursor` touches
(panel.py lines 64-112): the two cursor-producing callables, the saved
originals `_djdt_cursor`/`_djdt_chunked_cursor` (whose presence is the
`hasattr` guard), the logger slot, and whether Django's `SimpleTestCase`
harness has already replaced `.cursor` with a `_DatabaseFailure`. -/
structure Connection where
  cursor : CursorProducer
  chunked_cursor : CursorProducer
  djdt_cursor : Option CursorProducer
  djdt_chunked_cursor : Option CursorProducer
  djdt_logger_set : Bool
  cursor_is_db_failure : Bool
deriving DecidableEq, Repr

/-- `wrap_cursor` (panel.py lines 64-112): skip connections patched by the
test harness; then, only when `_djdt_cursor` is absent, save the original
callables, clear the logger slot and install the wrapping closures. -/
def wrap_cursor (c : Connection) : Connection :=
  if c.cursor_is_db_failure then c
  else if c.djdt_cursor.isSome then c
  else
    { cursor := .djdt_wrapped c.cursor,
      chunked_cursor := .djdt_wrapped c.chunked_cursor,
      djdt_cursor := some c.cursor,
      djdt_chunked_cursor := some c.chunked_cursor,
      djdt_logger_set := false,
      cursor_is_db_failure := c.cursor_is_db_failure }

/-- A Python class body, as far as attribute lookup is concerned: the names
its dict defines, and whether it defines a `__getattr__` that raises
`SQLQueryTriggered` (only `ExceptionCursorMixin` does,
panel.py lines 135-136). -/
structure PyClass where
  attrs : List String
  getattr_raises : Bool
deriving DecidableEq, Repr

/-- Outcome of one attribute access on a wrapper instance. -/
inductive AttrOutcome where
  | found_normal : AttrOutcome
  | raises_sql_query_triggered : AttrOutcome
  | attr_error : AttrOutcome
deriving DecidableEq, Repr

/-- `mixin = NormalCursorMixin if allow_sql.get() else ExceptionCursorMixin`
(panel.py lines 94, 105): the blocking mixin is chosen exactly when the
`allow_sql` context flag is false. -/
def cursor_mixin_is_exception (allow_sql_flag : Bool) : Bool := !allow_sql_flag

/-- The method resolution order of the class built by
`patch_cursor_wrapper_with_mixin(base_wrapper, mixin)`
(panel.py lines 115-119): `DjDTCursorWrapper` (empty body), the chosen
mixin (`ExceptionCursorMixin` defines only the raising `__getattr__`;
`NormalCursorMixin` defines the recording methods, lines 139-200),
`DjDTCursorWrapperMixin` (lines 122-126), then `base_wrapper` — the
wrapped driver cursor class, whose own attribute names are the parameter
`base_attrs`.  The source itself relies on `base_attrs` containing
`execute`, `executemany` and `callproc`: `NormalCursorMixin` forwards to
them through `super()` (lines 193-200). -/
def djdt_wrapper_mro (mixin_is_exception : Bool) (base_attrs : List String) : List PyClass :=
  [ ⟨[], false⟩,
    if mixin_is_exception then ⟨[], true⟩
    else ⟨["_decode", "_record", "callproc", "execute", "executemany"], false⟩,
    ⟨["__init__"], false⟩,
    ⟨base_attrs, false⟩ ]

/-- The instance attributes set by the `__init__` chain
(`DjDTCursorWrapperMixin.__init__` sets `logger` and calls the base
`__init__`, which stores `cursor` and `db`). -/
def wrapper_instance_attrs : List String := ["cursor", "db", "logger"]

/-- Python attribute access on a wrapper instance, per the data model:
regular lookup (instance dict, then the class dicts along the MRO) wins
first; only when it fails is the MRO's `__getattr__` fallback invoked —
`ExceptionCursorMixin.__getattr__` raises `SQLQueryTriggered`. -/
def getattr_on (mro : List PyClass) (inst : List String) (attr : String) : AttrOutcome :=
  if attr ∈ inst ∨ mro.any (fun cl => attr ∈ cl.attrs) then .found_normal
  else if mro.any (fun cl => cl.getattr_raises) then .raises_sql_query_triggered
  else .attr_error

/-- Derived view: the annotation-loop output for the `j`-th query of a
record-built panel (trace color abstracted as `tc`). -/
def base_annot (ext : Externals) (qs : List QueryRecord) (tc : String) (j : ℕ)
    (q : QueryRecord) : AnnotatedQuery :=
  annotate_one ext (stateOf qs).sql_time (stats_rgb_of (stateOf qs))
    (((qs.take j).map (fun r =>
      if (stateOf qs).sql_time = 0 then 0 else r.duration / (stateOf qs).sql_time * 100)).sum)
    tc q

/-- Derived view: the similar-pass annotation hitting position `j`. -/
def sim_applied (ext : Externals) (qs : List QueryRecord) (j : ℕ)
    (y : AnnotatedQuery) : AnnotatedQuery :=
  match (stats_sim_out ext qs).1.find? (fun a => decide (a.1 = j)) with
  | some a => set_similar y a.2.1 a.2.2
  | none => y

/-- Derived view: the duplicate-pass annotation hitting position `j`. -/
def dup_applied (ext : Externals) (qs : List QueryRecord) (j : ℕ)
    (y : AnnotatedQuery) : AnnotatedQuery :=
  match (stats_dup_out ext qs).1.find? (fun a => decide (a.1 = j)) with
  | some a => set_duplicate y a.2.1 a.2.2
  | none => y

/-- Concrete externals for witnesses and counterexamples (the panel applies
these opaquely, so any choice exercises the same code paths). -/
def ext0 : Externals :=
  { sql_warning_threshold := 500
    reformat_sql := fun s => "fmt " ++ s
    is_select_query := fun _ => false
    render_stacktrace := fun s => "tb " ++ s
    color_stream := fun n => "color" ++ toString n
    last_executed_query := fun s _ => s }

/-- A concrete recorded query on alias `a` with duration `d`. -/
def q_sim (a : String) (d : ℚ) : QueryRecord :=
  { alias_ := a, vendor := "mongodb", sql := "find all", duration := d,
    raw_sql := "db.collection.find()", params := "[]", raw_params := none,
    stacktrace := "frame0", template_info := none }

/-- The spec's concrete scenario: three queries on alias `default` with
identical SQL, durations 10, 20 and 30 ms. -/
def C4_queries : List QueryRecord :=
  [q_sim ("default") 10, q_sim ("default") 20, q_sim ("default") 30]

/-- A fresh, unwrapped connection. -/
def conn0 : Connection :=
  { cursor := .driver 0, chunked_cursor := .driver 1, djdt_cursor := none,
    djdt_chunked_cursor := none, djdt_logger_set := false, cursor_is_db_failure := false }

instance : IsTotal (String × DBAnn) db_sort_le :=
  ⟨fun a b => le_total b.2.time_spent a.2.time_spent⟩

instance : IsTrans (String × DBAnn) db_sort_le :=
  ⟨fun _ _ _ hab hbc => le_trans hbc hab⟩

theorem foldl_record_queries (qs : List QueryRecord) :
    ∀ st : PanelState, (qs.foldl MongoPanel_record st).queries = st.queries ++ qs := by
  induction qs with
  | nil => intro st; simp
  | cons q rest ih =>
    intro st
    simp only [List.foldl_cons, ih, MongoPanel_record]
    simp

theorem foldl_record_sql_time (qs : List QueryRecord) :
    ∀ st : PanelState,
      (qs.foldl MongoPanel_record st).sql_time = st.sql_time + (qs.map (·.duration)).sum := by
  induction qs with
  | nil => intro st; simp
  | cons q rest ih =>
    intro st
    simp only [List.foldl_cons, ih, MongoPanel_record]
    simp [add_assoc]

theorem stateOf_queries (qs : List QueryRecord) : (stateOf qs).queries = qs := by
  simpa using foldl_record_queries qs ⟨0, [], []⟩

theorem stateOf_sql_time (qs : List QueryRecord) :
    (stateOf qs).sql_time = (qs.map (·.duration)).sum := by
  simpa using foldl_record_sql_time qs ⟨0, [], []⟩

theorem alookup_eq_none_iff {α β : Type} [DecidableEq α] (a : α) (l : List (α × β)) :
    alookup a l = none ↔ a ∉ l.map Prod.fst := by
  induction l with
  | nil => simp [alookup]
  | cons kv rest ih =>
    by_cases h : kv.1 = a
    · simp [alookup, h]
    · simp [alookup, h, ih, Ne.symm h]

theorem alookup_db_update_self (a : String) (d : ℚ) (dbs : List (String × DBSummary)) :
    alookup a (db_update a d dbs) =
      some (match alookup a dbs with
            | some s => ⟨s.time_spent + d, s.num_queries + 1⟩
            | none => ⟨d, 1⟩) := by
  induction dbs with
  | nil => simp [db_update, alookup]
  | cons kv rest ih =>
    by_cases h : kv.1 = a
    · simp [db_update, alookup, h]
    · simp [db_update, alookup, h, ih]

theorem alookup_db_update_other (a b : String) (d : ℚ) (dbs : List (String × DBSummary))
    (h : b ≠ a) : alookup b (db_update a d dbs) = alookup b dbs := by
  induction dbs with
  | nil => simp [db_update, alookup, Ne.symm h]
  | cons kv rest ih =>
    by_cases hk : kv.1 = a
    · simp [db_update, alookup, hk, Ne.symm h]
    · by_cases hb : kv.1 = b <;> simp [db_update, alookup, hk, hb, h, ih]

theorem alookup_add_to_group_self {κ : Type} [DecidableEq κ] (k : κ) (i : ℕ)
    (gs : List (κ × List ℕ)) :
    alookup k (add_to_group k i gs) = some ((alookup k gs).getD [] ++ [i]) := by
  induction gs with
  | nil => simp [add_to_group, alookup]
  | cons g rest ih =>
    by_cases h : g.1 = k
    · simp [add_to_group, alookup, h]
    · simp [add_to_group, alookup, h, ih]

theorem alookup_add_to_group_other {κ : Type} [DecidableEq κ] (k k2 : κ) (i : ℕ)
    (gs : List (κ × List ℕ)) (h : k2 ≠ k) :
    alookup k2 (add_to_group k i gs) = alookup k2 gs := by
  induction gs with
  | nil => simp [add_to_group, alookup, Ne.symm h]
  | cons g rest ih =>
    by_cases hk : g.1 = k
    · simp [add_to_group, alookup, hk, Ne.symm h]
    · by_cases hb : g.1 = k2 <;> simp [add_to_group, alookup, hk, hb, h, ih]

theorem alookup_build_groups_go {κ : Type} [DecidableEq κ] (keyf : QueryRecord → κ) (k : κ) :
    ∀ (qs : List QueryRecord) (i : ℕ) (gs : List (κ × List ℕ)),
      alookup k (build_groups_go keyf i gs qs) =
        match alookup k gs with
        | some l => some (l ++ key_indices keyf k i qs)
        | none =>
          if key_indices keyf k i qs = [] then none else some (key_indices keyf k i qs) := by
  intro qs
  induction qs with
  | nil =>
    intro i gs
    cases h : alookup k gs <;> simp [build_groups_go, key_indices, h]
  | cons q rest ih =>
    intro i gs
    simp only [build_groups_go]
    rw [ih]
    by_cases hq : keyf q = k
    · rw [hq, alookup_add_to_group_self]
      cases h : alookup k gs <;> simp [key_indices, hq, h]
    · rw [alookup_add_to_group_other (keyf q) k i gs (fun hc => hq hc.symm)]
      cases h : alookup k gs <;> simp [key_indices, hq, h]

theorem mem_key_indices {κ : Type} [DecidableEq κ] (keyf : QueryRecord → κ) (k : κ) :
    ∀ (qs : List QueryRecord) (i0 j : ℕ),
      j ∈ key_indices keyf k i0 qs ↔
        ∃ jj : ℕ, jj < qs.length ∧ j = i0 + jj ∧ keyf (qs.getD jj default) = k := by
  intro qs
  induction qs with
  | nil => intro i0 j; simp [key_indices]
  | cons q rest ih =>
    intro i0 j
    by_cases hq : keyf q = k
    · simp only [key_indices, if_pos hq, List.mem_cons, ih]
      constructor
      · rintro (rfl | ⟨jj, hlt, rfl, hk2⟩)
        · exact ⟨0, by simp, by simp, by simpa using hq⟩
        · exact ⟨jj + 1, by simpa using hlt, by omega, by simpa using hk2⟩
      · rintro ⟨jj, hlt, rfl, hk2⟩
        cases jj with
        | zero => left; simp
        | succ m =>
          right
          exact ⟨m, by simpa using hlt, by omega, by simpa using hk2⟩
    · simp only [key_indices, if_neg hq, ih]
      constructor
      · rintro ⟨jj, hlt, rfl, hk2⟩
        exact ⟨jj + 1, by simpa using hlt, by omega, by simpa using hk2⟩
      · rintro ⟨jj, hlt, rfl, hk2⟩
        cases jj with
        | zero => exact absurd (by simpa using hk2) hq
        | succ m => exact ⟨m, by simpa using hlt, by omega, by simpa using hk2⟩

theorem keys_add_to_group {κ : Type} [DecidableEq κ] (k : κ) (i : ℕ) (gs : List (κ × List ℕ)) :
    (add_to_group k i gs).map Prod.fst =
      if alookup k gs = none then gs.map Prod.fst ++ [k] else gs.map Prod.fst := by
  induction gs with
  | nil => simp [add_to_group, alookup]
  | cons g rest ih =>
    by_cases h : g.1 = k
    · simp [add_to_group, alookup, h]
    · simp only [add_to_group, if_neg h, List.map_cons, ih, alookup]
      split <;> simp

theorem keys_nodup_build {κ : Type} [DecidableEq κ] (keyf : QueryRecord → κ) :
    ∀ (qs : List QueryRecord) (i : ℕ) (gs : List (κ × List ℕ)),
      (gs.map Prod.fst).Nodup → ((build_groups_go keyf i gs qs).map Prod.fst).Nodup := by
  intro qs
  induction qs with
  | nil => intro i gs h; simpa [build_groups_go] using h
  | cons q rest ih =>
    intro i gs h
    simp only [build_groups_go]
    apply ih
    rw [keys_add_to_group]
    split
    · rename_i hnone
      refine h.append (List.nodup_singleton _) ?_
      intro a ha hb
      rw [List.mem_singleton] at hb
      subst hb
      exact (alookup_eq_none_iff _ _).1 hnone ha
    · exact h

theorem alookup_of_mem_nodup {α β : Type} [DecidableEq α] (l : List (α × β)) (g : α × β)
    (hnd : (l.map Prod.fst).Nodup) (hg : g ∈ l) : alookup g.1 l = some g.2 := by
  induction l with
  | nil => cases hg
  | cons kv rest ih =>
    rw [List.map_cons, List.nodup_cons] at hnd
    rcases List.mem_cons.1 hg with rfl | hmem
    · simp [alookup]
    · have h1 : kv.1 ≠ g.1 := fun he => hnd.1 (he ▸ List.mem_map_of_mem Prod.fst hmem)
      simp only [alookup, if_neg h1]
      exact ih hnd.2 hmem

theorem build_groups_content {κ : Type} [DecidableEq κ] (keyf : QueryRecord → κ)
    (qs : List QueryRecord) (g : κ × List ℕ) (hg : g ∈ build_groups_go keyf 0 [] qs) :
    g.2 = key_indices keyf g.1 0 qs ∧ g.2 ≠ [] := by
  have hnd := keys_nodup_build keyf qs 0 [] (by simp)
  have h1 := alookup_of_mem_nodup _ g hnd hg
  rw [alookup_build_groups_go] at h1
  simp only [alookup] at h1
  by_cases he : key_indices keyf g.1 0 qs = []
  · simp [he] at h1
  · rw [if_neg he] at h1
    have h2 := Option.some.inj h1
    constructor
    · exact h2.symm
    · rw [← h2]; exact he

theorem mem_group_iff {κ : Type} [DecidableEq κ] (keyf : QueryRecord → κ)
    (qs : List QueryRecord) (g : κ × List ℕ) (hg : g ∈ build_groups_go keyf 0 [] qs) (j : ℕ) :
    j ∈ g.2 ↔ j < qs.length ∧ keyf (qs.getD j default) = g.1 := by
  rw [(build_groups_content keyf qs g hg).1, mem_key_indices]
  constructor
  · rintro ⟨jj, hlt, rfl, hk⟩
    rw [Nat.zero_add]
    exact ⟨hlt, hk⟩
  · rintro ⟨hlt, hk⟩
    exact ⟨j, hlt, by omega, hk⟩

theorem groups_pairwise_disjoint {κ : Type} [DecidableEq κ] (keyf : QueryRecord → κ)
    (qs : List QueryRecord) :
    (build_groups_go keyf 0 [] qs).Pairwise (fun g1 g2 => ∀ j, j ∈ g1.2 → j ∉ g2.2) := by
  have hnd := keys_nodup_build keyf qs 0 [] (by simp)
  have hnd2 : (build_groups_go keyf 0 [] qs).Pairwise (fun g1 g2 => g1.1 ≠ g2.1) := by
    rw [List.Nodup, List.pairwise_map] at hnd
    exact hnd
  refine hnd2.imp_of_mem ?_
  intro g1 g2 h1 h2 hne j hj1 hj2
  have e1 := (mem_group_iff keyf qs g1 h1 j).1 hj1
  have e2 := (mem_group_iff keyf qs g2 h2 j).1 hj2
  exact hne (e1.2.symm.trans e2.2)

theorem find?_append_cases {α : Type} (l1 l2 : List α) (p : α → Bool) :
    (l1 ++ l2).find? p =
      match l1.find? p with
      | some x => some x
      | none => l2.find? p := by
  induction l1 with
  | nil => simp
  | cons x rest ih =>
    by_cases h : p x
    · simp [List.find?_cons_of_pos, h]
    · rw [List.cons_append, List.find?_cons_of_neg _ h, List.find?_cons_of_neg _ h, ih]

theorem find?_map_triple_of_mem (l : List ℕ) (i c : ℕ) (col : String) (h : i ∈ l) :
    (l.map (fun j => (j, c, col))).find? (fun a => decide (a.1 = i)) = some (i, c, col) := by
  induction l with
  | nil => cases h
  | cons x rest ih =>
    by_cases hx : x = i
    · subst hx
      rw [List.map_cons, List.find?_cons_of_pos _ (by simp)]
    · rcases List.mem_cons.1 h with rfl | hmem
      · exact absurd rfl hx
      · rw [List.map_cons, List.find?_cons_of_neg _ (by simpa using hx)]
        exact ih hmem

theorem find?_map_triple_of_not_mem (l : List ℕ) (i c : ℕ) (col : String) (h : i ∉ l) :
    (l.map (fun j => (j, c, col))).find? (fun a => decide (a.1 = i)) = none := by
  induction l with
  | nil => simp
  | cons x rest ih =>
    have hx : x ≠ i := fun he => h (he ▸ List.mem_cons_self x rest)
    rw [List.map_cons, List.find?_cons_of_neg _ (by simpa using hx)]
    exact ih (fun hm => h (List.mem_cons_of_mem _ hm))

theorem process_groups_find_none {κ : Type} (colors : ℕ → String) :
    ∀ (gs : List ((String × κ) × List ℕ)) (c0 i : ℕ),
      (∀ g ∈ gs, i ∈ g.2 → ¬ 1 < g.2.length) →
      (process_groups colors c0 gs).1.find? (fun a => decide (a.1 = i)) = none := by
  intro gs
  induction gs with
  | nil => intro c0 i _; simp [process_groups]
  | cons g rest ih =>
    intro c0 i h
    by_cases hlen : 1 < g.2.length
    · have hi : i ∉ g.2 := fun hm => h g (List.mem_cons_self g rest) hm hlen
      simp only [process_groups, if_pos hlen]
      rw [find?_append_cases, find?_map_triple_of_not_mem _ _ _ _ hi]
      exact ih (c0 + 1) i (fun g2 hg2 him => h g2 (List.mem_cons_of_mem _ hg2) him)
    · simp only [process_groups, if_neg hlen]
      exact ih c0 i (fun g2 hg2 him => h g2 (List.mem_cons_of_mem _ hg2) him)

theorem process_groups_find_of_mem {κ : Type} (colors : ℕ → String) :
    ∀ (gs : List ((String × κ) × List ℕ)) (c0 : ℕ) (g : (String × κ) × List ℕ),
      g ∈ gs → 1 < g.2.length →
      gs.Pairwise (fun g1 g2 => ∀ j, j ∈ g1.2 → j ∉ g2.2) →
      ∃ n : ℕ, ∀ i ∈ g.2,
        (process_groups colors c0 gs).1.find? (fun a => decide (a.1 = i)) =
          some (i, g.2.length, colors n) := by
  intro gs
  induction gs with
  | nil => intro c0 g hg; cases hg
  | cons g1 rest ih =>
    intro c0 g hg hlen hpw
    rw [List.pairwise_cons] at hpw
    rcases List.mem_cons.1 hg with rfl | hmem
    · refine ⟨c0, fun i hi => ?_⟩
      simp only [process_groups, if_pos hlen]
      rw [find?_append_cases, find?_map_triple_of_mem _ _ _ _ hi]
    · by_cases hlen1 : 1 < g1.2.length
      · obtain ⟨n, hn⟩ := ih (c0 + 1) g hmem hlen hpw.2
        refine ⟨n, fun i hi => ?_⟩
        have hi1 : i ∉ g1.2 := fun him => hpw.1 g hmem i him hi
        simp only [process_groups, if_pos hlen1]
        rw [find?_append_cases, find?_map_triple_of_not_mem _ _ _ _ hi1]
        exact hn i hi
      · obtain ⟨n, hn⟩ := ih c0 g hmem hlen hpw.2
        refine ⟨n, fun i hi => ?_⟩
        simp only [process_groups, if_neg hlen1]
        exact hn i hi

theorem apply_annots_go_length (setter : AnnotatedQuery → ℕ → String → AnnotatedQuery)
    (assigns : List (ℕ × ℕ × String)) :
    ∀ (qs : List AnnotatedQuery) (i0 : ℕ),
      (apply_annots_go setter assigns i0 qs).length = qs.length := by
  intro qs
  induction qs with
  | nil => intro i0; simp [apply_annots_go]
  | cons q rest ih => intro i0; simp [apply_annots_go, ih]

theorem apply_annots_go_getElem? (setter : AnnotatedQuery → ℕ → String → AnnotatedQuery)
    (assigns : List (ℕ × ℕ × String)) :
    ∀ (qs : List AnnotatedQuery) (i0 j : ℕ),
      (apply_annots_go setter assigns i0 qs)[j]? =
        (qs[j]?).map (fun q =>
          match assigns.find? (fun a => decide (a.1 = i0 + j)) with
          | some a => setter q a.2.1 a.2.2
          | none => q) := by
  intro qs
  induction qs with
  | nil => intro i0 j; simp [apply_annots_go]
  | cons q rest ih =>
    intro i0 j
    cases j with
    | zero => simp [apply_annots_go]
    | succ m =>
      simp only [apply_annots_go, List.getElem?_cons_succ, ih]
      have harith : i0 + 1 + m = i0 + (m + 1) := by omega
      rw [harith]

theorem timeline_go_length (ext : Externals) (T : ℚ) (rgbOf : String → List ℤ) :
    ∀ (qs : List QueryRecord) (tally : ℚ) (tmap : List (String × String)) (cIdx : ℕ),
      (timeline_go ext T rgbOf tally tmap cIdx qs).length = qs.length := by
  intro qs
  induction qs with
  | nil => intros; simp [timeline_go]
  | cons q rest ih =>
    intro tally tmap cIdx
    simp only [timeline_go]
    split <;> simp [ih]

theorem timeline_go_widths (ext : Externals) (T : ℚ) (rgbOf : String → List ℤ) :
    ∀ (qs : List QueryRecord) (tally : ℚ) (tmap : List (String × String)) (cIdx : ℕ),
      (timeline_go ext T rgbOf tally tmap cIdx qs).map (·.width_ratio_) =
        qs.map (fun q => if T = 0 then 0 else q.duration / T * 100) := by
  intro qs
  induction qs with
  | nil => intros; simp [timeline_go]
  | cons q rest ih =>
    intro tally tmap cIdx
    simp only [timeline_go]
    split <;> simp [annotate_one, ih]

theorem timeline_go_getElem? (ext : Externals) (T : ℚ) (rgbOf : String → List ℤ) :
    ∀ (qs : List QueryRecord) (tally : ℚ) (tmap : List (String × String)) (cIdx j : ℕ)
      (q : QueryRecord), qs[j]? = some q →
      ∃ tc : String,
        (timeline_go ext T rgbOf tally tmap cIdx qs)[j]? =
          some (annotate_one ext T rgbOf
            (tally + ((qs.take j).map (fun r => if T = 0 then 0 else r.duration / T * 100)).sum)
            tc q) := by
  intro qs
  induction qs with
  | nil => intro tally tmap cIdx j q hq; simp at hq
  | cons q0 rest ih =>
    intro tally tmap cIdx j q hq
    cases j with
    | zero =>
      simp only [List.getElem?_cons_zero, Option.some.injEq] at hq
      subst hq
      simp only [timeline_go]
      split
      next x _ => exact ⟨x, by simp⟩
      next _ => exact ⟨ext.color_stream cIdx, by simp⟩
    | succ m =>
      simp only [List.getElem?_cons_succ] at hq
      have harith : ∀ s : ℚ,
          tally + (if T = 0 then 0 else q0.duration / T * 100) + s =
            tally + ((if T = 0 then 0 else q0.duration / T * 100) + s) := by
        intro s; rw [add_assoc]
      simp only [timeline_go]
      split
      next x _ =>
        obtain ⟨tc, htc⟩ :=
          ih (tally + (if T = 0 then 0 else q0.duration / T * 100)) tmap cIdx m q hq
        refine ⟨tc, ?_⟩
        simp only [List.getElem?_cons_succ]
        rw [htc, List.take_succ_cons, List.map_cons, List.sum_cons, harith]
      next _ =>
        obtain ⟨tc, htc⟩ :=
          ih (tally + (if T = 0 then 0 else q0.duration / T * 100))
            (tmap ++ [(ext.render_stacktrace q0.stacktrace, ext.color_stream cIdx)])
            (cIdx + 1) m q hq
        refine ⟨tc, ?_⟩
        simp only [List.getElem?_cons_succ]
        rw [htc, List.take_succ_cons, List.map_cons, List.sum_cons, harith]

theorem stats_queries_getElem? (ext : Externals) (qs : List QueryRecord) (j : ℕ)
    (q : QueryRecord) (hq : qs[j]? = some q) :
    ∃ tc : String,
      (stats_queries ext (stateOf qs))[j]? =
        some (dup_applied ext qs j (sim_applied ext qs j (base_annot ext qs tc j q))) := by
  have hlen : j < qs.length := by
    by_contra h
    rw [List.getElem?_eq_none (le_of_not_lt h)] at hq
    cases hq
  have hne : qs ≠ [] := by
    intro h
    subst h
    simp at hlen
  have hemp : qs.isEmpty = false := by
    cases qs with
    | nil => exact absurd rfl hne
    | cons a l => rfl
  obtain ⟨tc, htl⟩ :=
    timeline_go_getElem? ext (stateOf qs).sql_time (stats_rgb_of (stateOf qs)) qs 0 [] 0 j q hq
  refine ⟨tc, ?_⟩
  simp only [stats_queries, stats_tl_queries, stateOf_queries]
  rw [if_neg (by simp [hemp])]
  rw [apply_annots_go_getElem?, apply_annots_go_getElem?, htl]
  simp only [Option.map_some', Nat.zero_add, zero_add, dup_applied, sim_applied, base_annot]

theorem stats_queries_length (ext : Externals) (st : PanelState) :
    (stats_queries ext st).length = st.queries.length := by
  by_cases h : st.queries.isEmpty
  · have : st.queries = [] := List.isEmpty_iff.mp h
    simp [stats_queries, h, this]
  · simp only [stats_queries, if_neg h, apply_annots_go_length, timeline_go_length,
      stats_tl_queries]

theorem set_similar_fields (y : AnnotatedQuery) (c : ℕ) (col : String) :
    (set_similar y c col).duplicate_count = y.duplicate_count ∧
    (set_similar y c col).duplicate_color = y.duplicate_color ∧
    (set_similar y c col).similar_count = some c ∧
    (set_similar y c col).similar_color = some col := by
  simp [set_similar]

theorem dup_applied_similar_fields (ext : Externals) (qs : List QueryRecord) (j : ℕ)
    (y : AnnotatedQuery) :
    (dup_applied ext qs j y).similar_count = y.similar_count ∧
    (dup_applied ext qs j y).similar_color = y.similar_color := by
  rw [dup_applied]
  split <;> simp [set_duplicate]

theorem apply_annots_width (setter : AnnotatedQuery → ℕ → String → AnnotatedQuery)
    (assigns : List (ℕ × ℕ × String))
    (hp : ∀ y c col, (setter y c col).width_ratio_ = y.width_ratio_) :
    ∀ (qs : List AnnotatedQuery) (i0 : ℕ),
      (apply_annots_go setter assigns i0 qs).map (·.width_ratio_) = qs.map (·.width_ratio_) := by
  intro qs
  induction qs with
  | nil => intro i0; simp [apply_annots_go]
  | cons q rest ih =>
    intro i0
    simp only [apply_annots_go, List.map_cons, ih]
    congr 1
    split <;> simp [hp]

theorem stats_queries_widths (ext : Externals) (st : PanelState) :
    (stats_queries ext st).map (·.width_ratio_) =
      st.queries.map (fun q => if st.sql_time = 0 then 0 else q.duration / st.sql_time * 100) := by
  by_cases h : st.queries.isEmpty
  · have he := List.isEmpty_iff.mp h
    simp [stats_queries, h, he]
  · simp only [stats_queries, if_neg h, stats_tl_queries]
    rw [apply_annots_width set_duplicate _ (fun y c col => rfl),
        apply_annots_width set_similar _ (fun y c col => rfl),
        timeline_go_widths]

theorem sum_width_formula (qs : List QueryRecord) (T : ℚ) (hT : T ≠ 0) :
    (qs.map (fun q => if T = 0 then 0 else q.duration / T * 100)).sum =
      (qs.map (·.duration)).sum / T * 100 := by
  induction qs with
  | nil => simp
  | cons q rest ih =>
    rw [List.map_cons, List.sum_cons, List.map_cons, List.sum_cons, ih, if_neg hT]
    ring

theorem list_sum_map_zero {α : Type} (l : List α) : (l.map (fun _ => (0 : ℚ))).sum = 0 := by
  induction l with
  | nil => simp
  | cons a rest ih => simp [ih]

theorem applied_offsets (ext : Externals) (qs : List QueryRecord) (j : ℕ) (y : AnnotatedQuery) :
    (dup_applied ext qs j (sim_applied ext qs j y)).width_ratio_ = y.width_ratio_ ∧
    (dup_applied ext qs j (sim_applied ext qs j y)).start_offset = y.start_offset ∧
    (dup_applied ext qs j (sim_applied ext qs j y)).end_offset = y.end_offset := by
  rw [dup_applied, sim_applied]
  split <;> split <;> simp [set_similar, set_duplicate]

theorem stats_queries_elem_exists (ext : Externals) (qs : List QueryRecord) (j : ℕ)
    (a : AnnotatedQuery) (ha : (stats_queries ext (stateOf qs))[j]? = some a) :
    ∃ q : QueryRecord, qs[j]? = some q := by
  have hlen : j < (stats_queries ext (stateOf qs)).length :=
    (List.getElem?_eq_some_iff.mp ha).1
  rw [stats_queries_length, stateOf_queries] at hlen
  exact ⟨qs[j], List.getElem?_eq_getElem hlen⟩

/-- C3: on a non-empty recorded query list, if the recorded total
`sql_time` is strictly positive then `generate_stats` gives the queries
`width_ratio` values summing to exactly 100 (exact rationals model the float
arithmetic) with `start_offset`/`end_offset` the cumulative prefix sums of
`width_ratio`; and if `sql_time` is zero the `ZeroDivisionError` branch sets
`width_ratio` and both offsets to 0 on every query instead of raising. -/
theorem C3_width_and_offsets (ext : Externals) (qs : List QueryRecord) (hne : qs ≠ []) :
    (0 < (stateOf qs).sql_time →
      (((generate_stats ext (stateOf qs)).queries.map (·.width_ratio_)).sum = 100 ∧
       ∀ (j : ℕ) (a : AnnotatedQuery),
         (generate_stats ext (stateOf qs)).queries[j]? = some a →
         a.start_offset =
             (((generate_stats ext (stateOf qs)).queries.take j).map (·.width_ratio_)).sum ∧
           a.end_offset = a.start_offset + a.width_ratio_)) ∧
    ((stateOf qs).sql_time = 0 →
      ∀ (j : ℕ) (a : AnnotatedQuery),
        (generate_stats ext (stateOf qs)).queries[j]? = some a →
        a.width_ratio_ = 0 ∧ a.start_offset = 0 ∧ a.end_offset = 0) := by
  have hq : (generate_stats ext (stateOf qs)).queries = stats_queries ext (stateOf qs) := rfl
  constructor
  · intro hpos
    have hT : (stateOf qs).sql_time ≠ 0 := ne_of_gt hpos
    constructor
    · rw [hq, stats_queries_widths, stateOf_queries, sum_width_formula qs _ hT,
        ← stateOf_sql_time, div_self hT]
      norm_num
    · intro j a ha
      rw [hq] at ha
      obtain ⟨q, hqj⟩ := stats_queries_elem_exists ext qs j a ha
      obtain ⟨tc, hout⟩ := stats_queries_getElem? ext qs j q hqj
      rw [hout] at ha
      have haa := Option.some.inj ha
      subst haa
      obtain ⟨hw, hs, he⟩ := applied_offsets ext qs j (base_annot ext qs tc j q)
      refine ⟨?_, ?_⟩
      · rw [hs, hq, List.map_take, stats_queries_widths, stateOf_queries, ← List.map_take]
        simp [base_annot, annotate_one]
      · rw [he, hs, hw]
        simp only [base_annot, annotate_one]
        ring
  · intro h0 j a ha
    rw [hq] at ha
    obtain ⟨q, hqj⟩ := stats_queries_elem_exists ext qs j a ha
    obtain ⟨tc, hout⟩ := stats_queries_getElem? ext qs j q hqj
    rw [hout] at ha
    have haa := Option.some.inj ha
    subst haa
    obtain ⟨hw, hs, he⟩ := applied_offsets ext qs j (base_annot ext qs tc j q)
    have hbase : (base_annot ext qs tc j q).width_ratio_ = 0 ∧
        (base_annot ext qs tc j q).start_offset = 0 ∧
        (base_annot ext qs tc j q).end_offset = 0 := by
      refine ⟨by simp [base_annot, annotate_one, h0], ?_, ?_⟩
      · simp [base_annot, annotate_one, h0, list_sum_map_zero]
      · simp [base_annot, annotate_one, h0, list_sum_map_zero]
    exact ⟨hw.trans hbase.1, hs.trans hbase.2.1, he.trans hbase.2.2⟩

theorem mem_of_alookup {α β : Type} [DecidableEq α] :
    ∀ (l : List (α × β)) (k : α) (v : β), alookup k l = some v → (k, v) ∈ l := by
  intro l
  induction l with
  | nil => intro k v h; simp [alookup] at h
  | cons kv rest ih =>
    intro k v h
    by_cases hk : kv.1 = k
    · simp only [alookup, if_pos hk, Option.some.injEq] at h
      subst hk
      subst h
      simpa using List.mem_cons_self kv rest
    · simp only [alookup, if_neg hk] at h
      exact List.mem_cons_of_mem _ (ih k v h)

theorem build_groups_pair_mem {κ : Type} [DecidableEq κ] (keyf : QueryRecord → κ)
    (qs : List QueryRecord) (i j : ℕ) (qi qj : QueryRecord)
    (hqi : qs[i]? = some qi) (hqj : qs[j]? = some qj) (hkey : keyf qi = keyf qj) :
    (keyf qi, key_indices keyf (keyf qi) 0 qs) ∈ build_groups_go keyf 0 [] qs ∧
      i ∈ key_indices keyf (keyf qi) 0 qs ∧ j ∈ key_indices keyf (keyf qi) 0 qs := by
  have hleni : i < qs.length := (List.getElem?_eq_some_iff.mp hqi).1
  have hlenj : j < qs.length := (List.getElem?_eq_some_iff.mp hqj).1
  have hdi : qs.getD i default = qi := by rw [List.getD_eq_getElem?_getD, hqi]; rfl
  have hdj : qs.getD j default = qj := by rw [List.getD_eq_getElem?_getD, hqj]; rfl
  have hi : i ∈ key_indices keyf (keyf qi) 0 qs :=
    (mem_key_indices keyf (keyf qi) qs 0 i).mpr ⟨i, hleni, by omega, by rw [hdi]⟩
  have hj : j ∈ key_indices keyf (keyf qi) 0 qs :=
    (mem_key_indices keyf (keyf qi) qs 0 j).mpr
      ⟨j, hlenj, by omega, by rw [hdj]; exact hkey.symm⟩
  have hne : key_indices keyf (keyf qi) 0 qs ≠ [] := List.ne_nil_of_mem hi
  have halk : alookup (keyf qi) (build_groups_go keyf 0 [] qs) =
      some (key_indices keyf (keyf qi) 0 qs) := by
    rw [alookup_build_groups_go]
    simp only [alookup]
    rw [if_neg hne]
  exact ⟨mem_of_alookup _ _ _ halk, hi, hj⟩

/-- C9 (amended): `generate_stats` leaves the recorded `raw_sql`, `params`,
`raw_params`, `duration`, `alias`, `vendor` and `template_info` of every
query unchanged and only adds annotation fields — but it does overwrite two
recorded fields: `sql` is replaced by its reformatted rendering (when
non-empty) and `stacktrace` (the captured call stack) by its rendered form
(panel.py lines 326-327, 340). -/
theorem C9_recorded_fields (ext : Externals) (qs : List QueryRecord) :
    (generate_stats ext (stateOf qs)).queries.map
        (fun a => (a.raw_sql, a.params, a.raw_params, a.duration, a.alias_, a.vendor,
          a.template_info)) =
      qs.map (fun q => (q.raw_sql, q.params, q.raw_params, q.duration, q.alias_, q.vendor,
        q.template_info)) ∧
    (generate_stats ext (stateOf qs)).queries.map (fun a => (a.sql, a.stacktrace)) =
      qs.map (fun q =>
        ((if q.sql = "" then q.sql else ext.reformat_sql q.sql),
          ext.render_stacktrace q.stacktrace)) := by
  have hgen : (generate_stats ext (stateOf qs)).queries = stats_queries ext (stateOf qs) := rfl
  constructor
  · apply List.ext_getElem?
    intro n
    rw [hgen, List.getElem?_map, List.getElem?_map]
    cases hn : qs[n]? with
    | none =>
      have h1 : (stats_queries ext (stateOf qs))[n]? = none := by
        rw [List.getElem?_eq_none_iff, stats_queries_length, stateOf_queries]
        exact List.getElem?_eq_none_iff.mp hn
      rw [h1]
      rfl
    | some q =>
      obtain ⟨tc, hout⟩ := stats_queries_getElem? ext qs n q hn
      rw [hout]
      simp only [Option.map_some']
      rw [dup_applied, sim_applied]
      split <;> split <;> simp [set_similar, set_duplicate, base_annot, annotate_one]
  · apply List.ext_getElem?
    intro n
    rw [hgen, List.getElem?_map, List.getElem?_map]
    cases hn : qs[n]? with
    | none =>
      have h1 : (stats_queries ext (stateOf qs))[n]? = none := by
        rw [List.getElem?_eq_none_iff, stats_queries_length, stateOf_queries]
        exact List.getElem?_eq_none_iff.mp hn
      rw [h1]
      rfl
    | some q =>
      obtain ⟨tc, hout⟩ := stats_queries_getElem? ext qs n q hn
      rw [hout]
      simp only [Option.map_some']
      rw [dup_applied, sim_applied]
      split <;> split <;> simp [set_similar, set_duplicate, base_annot, annotate_one]

/-- C8 (amended): this port performs no transaction boundary detection —
recorded queries carry no transaction identifier, `generate_stats` only
builds an unused last-query-per-alias map, and no
`starts_trans`/`ends_trans`/`in_trans` mark is ever written on any query. -/
theorem C8_no_trans_marks (ext : Externals) (qs : List QueryRecord) :
    (generate_stats ext (stateOf qs)).queries.map
        (fun a => (a.starts_trans, a.ends_trans, a.in_trans)) =
      List.replicate qs.length
        ((none : Option Bool), (none : Option Bool), (none : Option Bool)) := by
  have hgen : (generate_stats ext (stateOf qs)).queries = stats_queries ext (stateOf qs) := rfl
  apply List.ext_getElem?
  intro n
  rw [hgen, List.getElem?_map]
  by_cases hlt : n < qs.length
  · obtain ⟨q, hn⟩ : ∃ q, qs[n]? = some q := ⟨qs[n], List.getElem?_eq_getElem hlt⟩
    obtain ⟨tc, hout⟩ := stats_queries_getElem? ext qs n q hn
    rw [hout, List.getElem?_replicate_of_lt hlt]
    simp only [Option.map_some']
    rw [dup_applied, sim_applied]
    split <;> split <;> simp [set_similar, set_duplicate, base_annot, annotate_one]
  · have h1 : (stats_queries ext (stateOf qs))[n]? = none := by
      rw [List.getElem?_eq_none_iff, stats_queries_length, stateOf_queries]
      omega
    have h2 : (List.replicate qs.length
        ((none : Option Bool), (none : Option Bool), (none : Option Bool)))[n]? = none := by
      rw [List.getElem?_eq_none_iff, List.length_replicate]
      omega
    rw [h1, h2]
    rfl

theorem similar_fields_at (ext : Externals) (qs : List QueryRecord) (i : ℕ) (qi : QueryRecord)
    (hqi : qs[i]? = some qi) :
    ((generate_stats ext (stateOf qs)).queries.map (·.similar_count))[i]? =
      some (match (stats_sim_out ext qs).1.find? (fun a => decide (a.1 = i)) with
            | some a => some a.2.1
            | none => none) ∧
    ((generate_stats ext (stateOf qs)).queries.map (·.similar_color))[i]? =
      some (match (stats_sim_out ext qs).1.find? (fun a => decide (a.1 = i)) with
            | some a => some a.2.2
            | none => none) := by
  obtain ⟨tc, hout⟩ := stats_queries_getElem? ext qs i qi hqi
  have hgen : (generate_stats ext (stateOf qs)).queries = stats_queries ext (stateOf qs) := rfl
  constructor
  · rw [hgen, List.getElem?_map, hout]
    simp only [Option.map_some']
    rw [(dup_applied_similar_fields ext qs i _).1, sim_applied]
    split <;> simp [set_similar, base_annot, annotate_one]
  · rw [hgen, List.getElem?_map, hout]
    simp only [Option.map_some']
    rw [(dup_applied_similar_fields ext qs i _).2, sim_applied]
    split <;> simp [set_similar, base_annot, annotate_one]

/-- C1 (amended): two queries with the same database alias and identical
raw SQL land in the same similarity group (the grouping key is the pair
`(alias, _similar_query_key(query))`, so equal SQL alone is not enough);
a group of size at least 2 has every member annotated with
`similar_count` equal to the group size and one shared `similar_color`,
and a group of size 1 gets no `similar` annotation. -/
theorem C1_similar_grouping (ext : Externals) (qs : List QueryRecord) (i j : ℕ)
    (qi qj : QueryRecord) (hqi : qs[i]? = some qi) (hqj : qs[j]? = some qj)
    (halias : qi.alias_ = qj.alias_) (hsql : qi.raw_sql = qj.raw_sql) :
    ∃ g ∈ similar_groups qs, i ∈ g.2 ∧ j ∈ g.2 ∧
      (1 < g.2.length →
        ((generate_stats ext (stateOf qs)).queries.map (·.similar_count))[i]? =
            some (some g.2.length) ∧
        ((generate_stats ext (stateOf qs)).queries.map (·.similar_count))[j]? =
            some (some g.2.length) ∧
        ∃ col : String,
          ((generate_stats ext (stateOf qs)).queries.map (·.similar_color))[i]? =
              some (some col) ∧
          ((generate_stats ext (stateOf qs)).queries.map (·.similar_color))[j]? =
              some (some col)) ∧
      (g.2.length = 1 →
        ((generate_stats ext (stateOf qs)).queries.map (·.similar_count))[i]? = some none ∧
        ((generate_stats ext (stateOf qs)).queries.map (·.similar_color))[i]? = some none) := by
  have hkey : (fun q : QueryRecord => (q.alias_, _similar_query_key q)) qi =
      (fun q : QueryRecord => (q.alias_, _similar_query_key q)) qj := by
    simp [_similar_query_key, halias, hsql]
  obtain ⟨hgmem, hi, hj⟩ :=
    build_groups_pair_mem (fun q => (q.alias_, _similar_query_key q)) qs i j qi qj hqi hqj hkey
  set K := (fun q : QueryRecord => (q.alias_, _similar_query_key q)) qi with hK
  set ki := key_indices (fun q : QueryRecord => (q.alias_, _similar_query_key q)) K 0 qs
    with hki
  have hgmem' : (K, ki) ∈ similar_groups qs := hgmem
  refine ⟨(K, ki), hgmem', hi, hj, ?_, ?_⟩
  · intro hlen
    obtain ⟨n, hn⟩ := process_groups_find_of_mem ext.color_stream (similar_groups qs) 0
      (K, ki) hgmem' hlen
      (groups_pairwise_disjoint (fun q => (q.alias_, _similar_query_key q)) qs)
    have hfi : (stats_sim_out ext qs).1.find? (fun a => decide (a.1 = i)) =
        some (i, ki.length, ext.color_stream n) := hn i hi
    have hfj : (stats_sim_out ext qs).1.find? (fun a => decide (a.1 = j)) =
        some (j, ki.length, ext.color_stream n) := hn j hj
    obtain ⟨hci, hcoli⟩ := similar_fields_at ext qs i qi hqi
    obtain ⟨hcj, hcolj⟩ := similar_fields_at ext qs j qj hqj
    rw [hfi] at hci hcoli
    rw [hfj] at hcj hcolj
    exact ⟨hci, hcj, ext.color_stream n, hcoli, hcolj⟩
  · intro hlen1
    have hnone : (stats_sim_out ext qs).1.find? (fun a => decide (a.1 = i)) = none := by
      apply process_groups_find_none
      intro g2 hg2 hig2 hg2len
      have hc2 := mem_group_iff (fun q => (q.alias_, _similar_query_key q)) qs g2 hg2 i
      have hc1 := mem_group_iff (fun q => (q.alias_, _similar_query_key q)) qs (K, ki)
        hgmem' i
      have hkey2 : g2.1 = K := by
        have e2 := (hc2.mp hig2).2
        have e1 := (hc1.mp hi).2
        exact e2.symm.trans e1
      have hcont2 := (build_groups_content
        (fun q => (q.alias_, _similar_query_key q)) qs g2 hg2).1
      rw [hcont2, hkey2] at hg2len
      rw [← hki] at hg2len
      have hl1 : ki.length = 1 := hlen1
      omega
    obtain ⟨hci, hcoli⟩ := similar_fields_at ext qs i qi hqi
    rw [hnone] at hci hcoli
    exact ⟨hci, hcoli⟩

/-- C2 (amended): two queries with the same database alias and identical
duplicate key — raw SQL plus the `repr`-serialized parameter tuple, which
sidesteps unhashable parameter values — land in the same duplicate group
(the grouping key is `(alias, _duplicate_query_key(query))`, so equal SQL
and parameters alone are not enough). -/
theorem C2_duplicate_grouping (qs : List QueryRecord) (i j : ℕ)
    (qi qj : QueryRecord) (hqi : qs[i]? = some qi) (hqj : qs[j]? = some qj)
    (halias : qi.alias_ = qj.alias_)
    (hkey : _duplicate_query_key qi = _duplicate_query_key qj) :
    ∃ g ∈ duplicate_groups qs, i ∈ g.2 ∧ j ∈ g.2 := by
  have hkey2 : (fun q : QueryRecord => (q.alias_, _duplicate_query_key q)) qi =
      (fun q : QueryRecord => (q.alias_, _duplicate_query_key q)) qj := by
    simp [halias, hkey]
  obtain ⟨hgmem, hi, hj⟩ :=
    build_groups_pair_mem (fun q => (q.alias_, _duplicate_query_key q)) qs i j qi qj hqi hqj
      hkey2
  exact ⟨_, hgmem, hi, hj⟩

/-- C4: each `record(fields)` call appends exactly one record, adds the
duration to the owning alias's `time_spent` and bumps `num_queries`
(creating the summary on first sight of the alias), and adds the duration
to the global `sql_time`; on the spec's concrete scenario (three queries on
alias `default`, durations 10/20/30, identical SQL) the `default` summary
shows `time_spent = 60` over 3 queries and `generate_stats` puts the three
queries in one similar group of size 3 sharing one color. -/
theorem C4_record_and_aggregate :
    (∀ (st : PanelState) (q : QueryRecord),
      (MongoPanel_record st q).queries = st.queries ++ [q] ∧
      (MongoPanel_record st q).sql_time = st.sql_time + q.duration ∧
      alookup q.alias_ (MongoPanel_record st q).databases =
        some (match alookup q.alias_ st.databases with
              | some s => ⟨s.time_spent + q.duration, s.num_queries + 1⟩
              | none => ⟨q.duration, 1⟩) ∧
      ∀ b : String, b ≠ q.alias_ →
        alookup b (MongoPanel_record st q).databases = alookup b st.databases) ∧
    alookup ("default") (stateOf C4_queries).databases = some ⟨60, 3⟩ ∧
    similar_groups C4_queries =
      [((("default" : String), ("db.collection.find()" : String)), [0, 1, 2])] ∧
    (generate_stats ext0 (stateOf C4_queries)).queries.map (·.similar_count) =
      [some 3, some 3, some 3] ∧
    (generate_stats ext0 (stateOf C4_queries)).queries.map (·.similar_color) =
      [some ("color0"), some ("color0"), some ("color0")] := by
  refine ⟨fun st q =>
    ⟨rfl, rfl, alookup_db_update_self _ _ _,
      fun b hb => alookup_db_update_other _ _ _ _ hb⟩, ?_, by decide, by decide, by decide⟩
  simp [stateOf, C4_queries, MongoPanel_record, db_update, q_sim, alookup]
  norm_num

theorem assign_rgb_go_summary (f : ℕ) :
    ∀ (dbs : List (String × DBSummary)) (n : ℕ),
      (assign_rgb_go f n dbs).map (fun kv => (kv.1, kv.2.1.time_spent, kv.2.1.num_queries)) =
        dbs.map (fun kv => (kv.1, kv.2.time_spent, kv.2.num_queries)) := by
  intro dbs
  induction dbs with
  | nil => intro n; simp [assign_rgb_go]
  | cons kv rest ih => intro n; simp [assign_rgb_go, ih]

/-- C10: the `databases` entry of the stats payload is the alias/summary
map sorted descending by aggregate `time_spent` (Python's
`sorted(..., key=lambda x: -x[1]["time_spent"])`): it is sorted, it is a
permutation of the annotated databases map, and that map carries exactly
the recorded per-alias aggregates. -/
theorem C10_databases_sorted (ext : Externals) (qs : List QueryRecord) :
    List.Sorted db_sort_le (generate_stats ext (stateOf qs)).databases ∧
    (generate_stats ext (stateOf qs)).databases.Perm
      (stats_databases_unsorted ext (stateOf qs)) ∧
    (stats_databases_unsorted ext (stateOf qs)).map
        (fun kv => (kv.1, kv.2.time_spent, kv.2.num_queries)) =
      (stateOf qs).databases.map (fun kv => (kv.1, kv.2.time_spent, kv.2.num_queries)) := by
  refine ⟨List.sorted_insertionSort db_sort_le _, List.perm_insertionSort db_sort_le _, ?_⟩
  simp only [stats_databases_unsorted]
  split
  · rw [List.map_map]
    rfl
  · rw [stats_rgb_dbs, List.map_map]
    exact assign_rgb_go_summary _ _ 0

/-- C5: `wrap_cursor` is idempotent — the `hasattr(connection,
"_djdt_cursor")` guard makes any second or later application a no-op, so a
fresh connection ends up with exactly one instrumentation layer on both
cursor-producing callables (each layer records an executed statement once,
so statements are recorded exactly once). -/
theorem C5_wrap_idempotent (c : Connection) (n : ℕ) (hfresh : c.djdt_cursor = none)
    (hfail : c.cursor_is_db_failure = false) :
    wrap_cursor (wrap_cursor c) = wrap_cursor c ∧
    instr_layers ((wrap_cursor^[n + 1]) c).cursor = instr_layers c.cursor + 1 ∧
    instr_layers ((wrap_cursor^[n + 1]) c).chunked_cursor =
      instr_layers c.chunked_cursor + 1 := by
  have h1 : wrap_cursor c =
      { cursor := .djdt_wrapped c.cursor, chunked_cursor := .djdt_wrapped c.chunked_cursor,
        djdt_cursor := some c.cursor, djdt_chunked_cursor := some c.chunked_cursor,
        djdt_logger_set := false, cursor_is_db_failure := c.cursor_is_db_failure } := by
    rw [wrap_cursor, if_neg (by simp [hfail]), if_neg (by simp [hfresh])]
  have h2 : wrap_cursor (wrap_cursor c) = wrap_cursor c := by
    rw [h1, wrap_cursor]
    simp [hfail]
  have hiter : (wrap_cursor^[n + 1]) c = wrap_cursor c := by
    rw [Function.iterate_succ_apply]
    exact Function.iterate_fixed h2 n
  refine ⟨h2, ?_, ?_⟩
  · rw [hiter, h1]
    simp [instr_layers]
  · rw [hiter, h1]
    simp [instr_layers]

/-- C6 evaluated at the failing input: in blocking mode (`allow_sql` false,
hence `ExceptionCursorMixin`), accessing `execute` — an attribute the base
cursor wrapper class defines, as the source itself relies on through
`super().execute` — succeeds through normal MRO lookup and runs the query,
because Python only calls `__getattr__` when normal lookup fails; only
attributes absent from the class hierarchy (e.g. `fetchone` when the base
leaves it to its own `__getattr__`) raise `SQLQueryTriggered`.  In normal
mode (`allow_sql` true) `execute` resolves to the recording
`NormalCursorMixin.execute`. -/
theorem C6_blocking_lookup_gap :
    getattr_on (djdt_wrapper_mro (cursor_mixin_is_exception false)
        ["execute", "executemany", "callproc"]) wrapper_instance_attrs ("execute") =
      AttrOutcome.found_normal ∧
    getattr_on (djdt_wrapper_mro (cursor_mixin_is_exception false)
        ["execute", "executemany", "callproc"]) wrapper_instance_attrs ("fetchone") =
      AttrOutcome.raises_sql_query_triggered ∧
    getattr_on (djdt_wrapper_mro (cursor_mixin_is_exception true)
        ["execute", "executemany", "callproc"]) wrapper_instance_attrs ("execute") =
      AttrOutcome.found_normal := by
  decide

/-- C7: when the bound parameters are not JSON-serializable
(`json.dumps` raises `TypeError`), the recorded `params` display field
stays the initial empty string (`contextlib.suppress(TypeError)`) and the
record call still completes normally: exactly one record is appended and
the totals are updated. -/
theorem C7_nonserializable_params (ext : Externals) (st : PanelState)
    (alias_ vendor sql : String) (params : Option (List PyVal)) (d : ℚ)
    (stack : String) (tinfo : Option String)
    (h : json_dumps (_decode (match params with
      | none => PyVal.none_
      | some xs => PyVal.list_ xs)) = none) :
    (_record_kwargs ext alias_ vendor sql params d stack tinfo).params = "" ∧
    (MongoPanel_record st (_record_kwargs ext alias_ vendor sql params d stack tinfo)).queries
      = st.queries ++ [_record_kwargs ext alias_ vendor sql params d stack tinfo] ∧
    (MongoPanel_record st (_record_kwargs ext alias_ vendor sql params d stack tinfo)).sql_time
      = st.sql_time + d := by
  refine ⟨?_, rfl, ?_⟩
  · simp [_record_kwargs, h]
  · simp [MongoPanel_record, _record_kwargs]

theorem C1_witness :
    ∃ g ∈ similar_groups [q_sim ("default") 10, q_sim ("default") 20],
      0 ∈ g.2 ∧ 1 ∈ g.2 ∧
      (1 < g.2.length →
        ((generate_stats ext0
            (stateOf [q_sim ("default") 10, q_sim ("default") 20])).queries.map
              (·.similar_count))[0]? = some (some g.2.length) ∧
        ((generate_stats ext0
            (stateOf [q_sim ("default") 10, q_sim ("default") 20])).queries.map
              (·.similar_count))[1]? = some (some g.2.length) ∧
        ∃ col : String,
          ((generate_stats ext0
              (stateOf [q_sim ("default") 10, q_sim ("default") 20])).queries.map
                (·.similar_color))[0]? = some (some col) ∧
          ((generate_stats ext0
              (stateOf [q_sim ("default") 10, q_sim ("default") 20])).queries.map
                (·.similar_color))[1]? = some (some col)) ∧
      (g.2.length = 1 →
        ((generate_stats ext0
            (stateOf [q_sim ("default") 10, q_sim ("default") 20])).queries.map
              (·.similar_count))[0]? = some none ∧
        ((generate_stats ext0
            (stateOf [q_sim ("default") 10, q_sim ("default") 20])).queries.map
              (·.similar_color))[0]? = some none) :=
  C1_similar_grouping ext0 [q_sim ("default") 10, q_sim ("default") 20] 0 1
    (q_sim ("default") 10) (q_sim ("default") 20) rfl rfl rfl rfl

/-- C1 counterexample: two queries with identical raw SQL but different
aliases (`a` and `b`) are split into two singleton similarity groups and
receive no `similar` annotation, refuting the claim as stated (which keys
similarity on raw SQL alone). -/
theorem C1_cx_alias_split :
    (q_sim ("a") 1).raw_sql = (q_sim ("b") 1).raw_sql ∧
    (¬ ∃ g ∈ similar_groups [q_sim ("a") 1, q_sim ("b") 1], 0 ∈ g.2 ∧ 1 ∈ g.2) ∧
    (generate_stats ext0 (stateOf [q_sim ("a") 1, q_sim ("b") 1])).queries.map
        (·.similar_count) = [none, none] := by
  refine ⟨rfl, by decide, by decide⟩

theorem C2_witness :
    ∃ g ∈ duplicate_groups [q_sim ("default") 10, q_sim ("default") 20],
      0 ∈ g.2 ∧ 1 ∈ g.2 :=
  C2_duplicate_grouping [q_sim ("default") 10, q_sim ("default") 20] 0 1
    (q_sim ("default") 10) (q_sim ("default") 20) rfl rfl rfl rfl

/-- C2 counterexample: two queries with identical raw SQL and identical
serialized parameters but different aliases are split into two singleton
duplicate groups, refuting the claim as stated (which keys duplicates on
SQL and parameters alone). -/
theorem C2_cx_alias_split :
    _duplicate_query_key (q_sim ("a") 1) = _duplicate_query_key (q_sim ("b") 1) ∧
    (¬ ∃ g ∈ duplicate_groups [q_sim ("a") 1, q_sim ("b") 1], 0 ∈ g.2 ∧ 1 ∈ g.2) ∧
    (generate_stats ext0 (stateOf [q_sim ("a") 1, q_sim ("b") 1])).queries.map
        (·.duplicate_count) = [none, none] := by
  refine ⟨rfl, by decide, by decide⟩

theorem C3_witness :
    (0 < (stateOf [q_sim ("default") 10, q_sim ("default") 30]).sql_time →
      (((generate_stats ext0
          (stateOf [q_sim ("default") 10, q_sim ("default") 30])).queries.map
            (·.width_ratio_)).sum = 100 ∧
       ∀ (j : ℕ) (a : AnnotatedQuery),
         (generate_stats ext0
             (stateOf [q_sim ("default") 10, q_sim ("default") 30])).queries[j]? = some a →
         a.start_offset =
             (((generate_stats ext0
                 (stateOf [q_sim ("default") 10, q_sim ("default") 30])).queries.take j).map
                   (·.width_ratio_)).sum ∧
           a.end_offset = a.start_offset + a.width_ratio_)) ∧
    ((stateOf [q_sim ("default") 10, q_sim ("default") 30]).sql_time = 0 →
      ∀ (j : ℕ) (a : AnnotatedQuery),
        (generate_stats ext0
            (stateOf [q_sim ("default") 10, q_sim ("default") 30])).queries[j]? = some a →
        a.width_ratio_ = 0 ∧ a.start_offset = 0 ∧ a.end_offset = 0) :=
  C3_width_and_offsets ext0 [q_sim ("default") 10, q_sim ("default") 30]
    (List.cons_ne_nil _ _)

theorem C4_witness :
    alookup ("other") (MongoPanel_record ⟨0, [], []⟩ (q_sim ("default") 10)).databases =
      alookup ("other") ([] : List (String × DBSummary)) :=
  (C4_record_and_aggregate.1 ⟨0, [], []⟩ (q_sim ("default") 10)).2.2.2 ("other") (by decide)

theorem C5_witness :
    wrap_cursor (wrap_cursor conn0) = wrap_cursor conn0 ∧
    instr_layers ((wrap_cursor^[2 + 1]) conn0).cursor = instr_layers conn0.cursor + 1 ∧
    instr_layers ((wrap_cursor^[2 + 1]) conn0).chunked_cursor =
      instr_layers conn0.chunked_cursor + 1 :=
  C5_wrap_idempotent conn0 2 rfl rfl

theorem C7_witness :
    (_record_kwargs ext0 ("default") ("mongodb") ("q") (some [PyVal.decimal_ 1]) 5
      ("s") none).params = "" ∧
    (MongoPanel_record ⟨0, [], []⟩ (_record_kwargs ext0 ("default") ("mongodb") ("q")
        (some [PyVal.decimal_ 1]) 5 ("s") none)).queries
      = ([] : List QueryRecord) ++ [_record_kwargs ext0 ("default") ("mongodb") ("q")
          (some [PyVal.decimal_ 1]) 5 ("s") none] ∧
    (MongoPanel_record ⟨0, [], []⟩ (_record_kwargs ext0 ("default") ("mongodb") ("q")
        (some [PyVal.decimal_ 1]) 5 ("s") none)).sql_time = 0 + 5 :=
  C7_nonserializable_params ext0 ⟨0, [], []⟩ ("default") ("mongodb") ("q")
    (some [PyVal.decimal_ 1]) 5 ("s") none
    (by simp [_decode, _decode_list, json_dumps, json_dumps_list])

/-- C8 counterexample: with two aliases recorded (where upstream would
compare per-alias transaction ids), no query in the payload carries any
`starts_trans`/`ends_trans`/`in_trans` mark. -/
theorem C8_cx_no_marks :
    (generate_stats ext0 (stateOf [q_sim ("default") 1, q_sim ("other") 2])).queries.map
        (fun a => (a.starts_trans, a.ends_trans, a.in_trans)) =
      [(none, none, none), (none, none, none)] := by
  decide

/-- C9 counterexample: `generate_stats` rewrites the recorded call stack
(`stacktrace`) to its rendered form and the recorded `sql` to its
reformatted form, so those recorded fields are modified. -/
theorem C9_cx_fields_rewritten :
    (generate_stats ext0 (stateOf [q_sim ("default") 5])).queries.map (·.stacktrace) =
      ["tb frame0"] ∧
    (q_sim ("default") 5).stacktrace = "frame0" ∧
    (generate_stats ext0 (stateOf [q_sim ("default") 5])).queries.map (·.sql) =
      ["fmt find all"] ∧
    (q_sim ("default") 5).sql = "find all" := by
  refine ⟨by decide, rfl, by decide, rfl⟩
